import Mathlib

/- Verification of the resilience snippets of the Interview-prep repository:
   the retry wrapper withRetry and the CircuitBreaker class from
   src/backend-examples.js (mirrored in src/unnamed/part_000), and the
   cache-aside sketches cacheAsideExample (src/postgres.js) and getUser
   (src/backend-examples.js, the Redis-caching variant).

   Embedding conventions:
   - JavaScript promises are modelled by explicit values: an awaited call
     that can reject is an `Except` value passed in as a parameter.
   - Machine time is a natural number of milliseconds; `setTimeout(cb, t)`
     scheduled at instant `now` is recorded as a pending firing time
     `now + t`; pending callbacks whose time has arrived run at the start
     of the next observed call, which matches the event loop for the
     sequential call traces the claims are about.
   - JSON.stringify / JSON.parse round-trip on the stored object is the
     identity, so the cache store holds the structured value directly. -/

namespace InterviewPrep

/-! ## Retry wrapper (src/backend-examples.js lines 181-190)

    async function withRetry(fn, retries = 3, delay = 1000) {
        for (let i = 0; i < retries; i++) {
            try { return await fn(); }
            catch (error) {
                if (i === retries - 1) throw error;
                await new Promise(r => setTimeout(r, delay * (i + 1)));
            }
        }
    }

    The outcome of the i-th invocation of fn (0-indexed) is given by
    `fn i : Except E A`. The trace records the returned value (`ok none`
    is the undefined value returned when the loop exhausts without running,
    `ok (some a)` a resolved value, `error e` a rejection), the number of
    times fn was invoked, and the list of sleep durations in order. -/

structure RetryTrace (E A : Type) where
  result : Except E (Option A)
  calls : Nat
  delays : List Nat

/-- Loop body of withRetry: `i` is the current loop index, the last
    argument is `retries - i`, the number of iterations left. One
    iteration left means `i === retries - 1`, the branch that rethrows. -/
def withRetryGo (fn : Nat → Except E A) (d : Nat) (i : Nat) : Nat → RetryTrace E A
  | 0 => ⟨Except.ok none, 0, []⟩
  | 1 =>
    match fn i with
    | Except.ok a => ⟨Except.ok (some a), 1, []⟩
    | Except.error e => ⟨Except.error e, 1, []⟩
  | r + 2 =>
    match fn i with
    | Except.ok a => ⟨Except.ok (some a), 1, []⟩
    | Except.error _ =>
      let t := withRetryGo fn d (i + 1) (r + 1)
      ⟨t.result, t.calls + 1, d * (i + 1) :: t.delays⟩

/-- withRetry: the JS loop `for (let i = 0; i < retries; i++)` runs
    `max(retries, 0)` iterations, hence `retries.toNat`. -/
def withRetry (fn : Nat → Except E A) (retries : Int) (d : Nat) : RetryTrace E A :=
  withRetryGo fn d 0 retries.toNat

/-- Boolean test that a JS attempt outcome was a rejection. -/
def attemptFails (x : Except E A) : Bool :=
  match x with
  | Except.error _ => true
  | Except.ok _ => false

/-- An origin that rejects on every attempt, used on concrete traces. -/
def failAlways : Nat → Except Unit Unit := fun _ => Except.error ()

/-- An origin that rejects on attempts 0 and 1 and resolves 42 on
    attempt 2, used on concrete traces. -/
def flaky : Nat → Except Unit Nat :=
  fun i => if i < 2 then Except.error () else Except.ok 42

/-! ## Circuit breaker (src/backend-examples.js lines 196-223)

    class CircuitBreaker {
        constructor(threshold = 5, timeout = 60000) {
            this.failures = 0; this.threshold = threshold;
            this.timeout = timeout; this.state = 'CLOSED';
        }
        async call(fn) {
            if (this.state === 'OPEN') throw new Error('Circuit is OPEN');
            try { const result = await fn(); this.failures = 0; return result; }
            catch (error) {
                this.failures++;
                if (this.failures >= this.threshold) {
                    this.state = 'OPEN';
                    setTimeout(() => this.state = 'HALF-OPEN', this.timeout);
                }
                throw error;
            }
        }
    } -/

inductive BState where
  | closed
  | opened
  | halfOpen
deriving DecidableEq

/-- Errors observable from CircuitBreaker.call: the synthetic
    `new Error('Circuit is OPEN')`, or the rethrown wrapped error. -/
inductive CBErr (E : Type) where
  | circuitOpen
  | wrapped (e : E)
deriving DecidableEq

structure CircuitBreaker where
  failures : Nat
  threshold : Nat
  timeout : Nat
  state : BState
  pending : List Nat
deriving DecidableEq

/-- The constructor, with the JS default arguments threshold = 5 and
    timeout = 60000. -/
def CircuitBreaker.new (threshold : Nat := 5) (timeout : Nat := 60000) :
    CircuitBreaker :=
  ⟨0, threshold, timeout, BState.closed, []⟩

/-- Run every scheduled `setTimeout(() => this.state = 'HALF-OPEN')`
    callback whose firing time has arrived; each sets state to HALF-OPEN. -/
def CircuitBreaker.fireTimers (cb : CircuitBreaker) (now : Nat) : CircuitBreaker :=
  { cb with
    state :=
      if cb.pending.any (fun t => decide (t ≤ now)) then BState.halfOpen
      else cb.state,
    pending := cb.pending.filter (fun t => decide (now < t)) }

/-- Result of one CircuitBreaker.call: the outcome delivered to the
    caller, the breaker afterwards, and whether fn was invoked. -/
structure CallOut (E V : Type) where
  result : Except (CBErr E) V
  breaker : CircuitBreaker
  invoked : Bool

/-- The body of CircuitBreaker.call after due timer callbacks have run:
    the OPEN check, then the try/catch around `await fn()`. The JS code
    increments failures and then tests `failures >= threshold`, which on
    the pre-increment count reads `threshold ≤ failures + 1`. -/
def CircuitBreaker.callAfter (c : CircuitBreaker) (now : Nat) (fn : Except E V) :
    CallOut E V :=
  if c.state = BState.opened then ⟨Except.error CBErr.circuitOpen, c, false⟩
  else
    match fn with
    | Except.ok v => ⟨Except.ok v, { c with failures := 0 }, true⟩
    | Except.error e =>
      if c.threshold ≤ c.failures + 1 then
        ⟨Except.error (CBErr.wrapped e),
          { c with
            failures := c.failures + 1,
            state := BState.opened,
            pending := c.pending ++ [now + c.timeout] }, true⟩
      else
        ⟨Except.error (CBErr.wrapped e), { c with failures := c.failures + 1 }, true⟩

/-- One call through the breaker at instant `now`; `fn` is the outcome
    the wrapped function resolves to if it is invoked. Due timer
    callbacks run first, as the event loop would before this task. -/
def CircuitBreaker.call (cb : CircuitBreaker) (now : Nat) (fn : Except E V) :
    CallOut E V :=
  (cb.fireTimers now).callAfter now fn

/-- A breaker sitting in the Open state with one scheduled half-open
    flip still in the future, for concrete witnesses. -/
def openBreaker : CircuitBreaker := ⟨5, 5, 60000, BState.opened, [70000]⟩

/-- A breaker sitting in the HalfOpen state right after a trip (failures
    at threshold, flip already fired), for concrete witnesses. -/
def halfOpenBreaker : CircuitBreaker := ⟨5, 5, 60000, BState.halfOpen, []⟩

/-! ## Cache-aside sketches

    src/postgres.js lines 673-690:

    async function cacheAsideExample(userId) {
        const redis = new Redis();
        const cacheKey = `user:` + userId;
        const cachedData = await redis.get(cacheKey);
        if (cachedData) return JSON.parse(cachedData);
        const user = { id: userId, name: 'From DB' }; // Access Database here
        await redis.set(cacheKey, JSON.stringify(user), 'EX', 600);
        return user;
    }

    src/backend-examples.js lines 340-352 (getUser) is the same shape with
    db.users.findById(id) as the origin and a 3600 second expiry.

    The Redis store is modelled with its TTL semantics: an entry carries
    its absolute expiry instant and get drops expired entries. The awaited
    redis.get and redis.set can reject; the booleans gf and sf say whether
    they do, and the origin database read is the parameter db (the source
    marks its object literal as a stand-in: Access Database here). -/

structure User where
  id : Nat
  name : String
deriving DecidableEq

/-- The object literal the source builds on a cache miss. -/
def originUser (uid : Nat) : User := ⟨uid, "From DB"⟩

/-- Exceptions a cache-aside call can reject with. -/
inductive JsExn where
  | cacheGetErr
  | cacheSetErr
  | dbErr
deriving DecidableEq

/-- A Redis-like store: key to (value, absolute expiry instant). -/
structure Store (V : Type) where
  entries : String → Option (V × Nat)

/-- Redis GET: an entry is visible only before its expiry instant. -/
def Store.get (s : Store V) (now : Nat) (k : String) : Option V :=
  match s.entries k with
  | some (v, exp) => if now < exp then some v else none
  | none => none

/-- Redis SET key value EX ttl: stores the value expiring at now + ttl. -/
def Store.setEx (s : Store V) (now ttl : Nat) (k : String) (v : V) : Store V :=
  ⟨fun k2 => if k2 = k then some (v, now + ttl) else s.entries k2⟩

/-- The template literal `user:` + userId. -/
def userKey (uid : Nat) : String := "user:" ++ toString uid

/-- The store with no entries. -/
def emptyStore : Store User := ⟨fun _ => none⟩

/-- Outcome of one cache-aside call: the result delivered to the caller,
    the store afterwards, and how many times the origin was consulted. -/
structure FetchTrace (V : Type) where
  result : Except JsExn V
  store : Store V
  originCalls : Nat

/-- The miss path of cacheAsideExample: consult the database, then
    redis.set with EX 600; a rejecting set (sf = true) propagates. -/
def cacheAsideMiss (st : Store User) (now uid : Nat) (sf : Bool)
    (db : Except Unit User) : FetchTrace User :=
  match db with
  | Except.error _ => ⟨Except.error JsExn.dbErr, st, 1⟩
  | Except.ok user =>
    match sf with
    | true => ⟨Except.error JsExn.cacheSetErr, st, 1⟩
    | false => ⟨Except.ok user, Store.setEx st now 600 (userKey uid) user, 1⟩

/-- cacheAsideExample: redis.get (rejecting when gf = true, which
    propagates, there is no try/catch in the source), hit check, then the
    miss path. -/
def cacheAsideExample (st : Store User) (now uid : Nat) (gf sf : Bool)
    (db : Except Unit User) : FetchTrace User :=
  match gf with
  | true => ⟨Except.error JsExn.cacheGetErr, st, 0⟩
  | false =>
    match Store.get st now (userKey uid) with
    | some cached => ⟨Except.ok cached, st, 0⟩
    | none => cacheAsideMiss st now uid sf db

/-- getUser from src/backend-examples.js lines 340-352: identical shape,
    origin db.users.findById, expiry EX 3600. -/
def getUser (st : Store User) (now uid : Nat) (gf sf : Bool)
    (db : Except Unit User) : FetchTrace User :=
  match gf with
  | true => ⟨Except.error JsExn.cacheGetErr, st, 0⟩
  | false =>
    match Store.get st now (userKey uid) with
    | some cached => ⟨Except.ok cached, st, 0⟩
    | none =>
      match db with
      | Except.error _ => ⟨Except.error JsExn.dbErr, st, 1⟩
      | Except.ok user =>
        match sf with
        | true => ⟨Except.error JsExn.cacheSetErr, st, 1⟩
        | false => ⟨Except.ok user, Store.setEx st now 3600 (userKey uid) user, 1⟩

/-- Outcome of two concurrent cache-aside calls for the same key. -/
structure PairTrace (V : Type) where
  resA : Except JsExn V
  resB : Except JsExn V
  store : Store V
  originCalls : Nat

/-- Two callers A and B run cacheAsideExample(uid) concurrently with a
    reliable Redis. Event-loop order: both issue `await redis.get` before
    either resumes, so both reads observe the initial store; A then runs
    to completion, then B resumes its continuation against the store A
    left behind, but with the read it already took. -/
def concurrentPair (st : Store User) (now uid : Nat)
    (db : Except Unit User) : PairTrace User :=
  let a := cacheAsideExample st now uid false false db
  let b : FetchTrace User :=
    match Store.get st now (userKey uid) with
    | some v => ⟨Except.ok v, a.store, 0⟩
    | none => cacheAsideMiss a.store now uid false db
  ⟨a.result, b.result, b.store, a.originCalls + b.originCalls⟩

/-- A store holding a fresh entry for user 5, for concrete witnesses. -/
def storeWithU5 : Store User :=
  ⟨fun k => if k = userKey 5 then some (originUser 5, 600) else none⟩

/-! ## Lemmas about withRetry -/

/-- The loop performs at most as many invocations as iterations remain. -/
theorem withRetryGo_calls_le (fn : Nat → Except E A) (d : Nat) :
    ∀ (r i : Nat), (withRetryGo fn d i r).calls ≤ r := by
  intro r
  induction r with
  | zero => intro i; simp [withRetryGo]
  | succ r ih =>
    intro i
    cases r with
    | zero => cases h : fn i <;> simp [withRetryGo, h]
    | succ r2 =>
      cases h : fn i with
      | ok a => simp [withRetryGo, h]
      | error e =>
        have := ih (i + 1)
        simp only [withRetryGo, h]
        omega

/-- With at least one iteration left, fn is invoked at least once. -/
theorem withRetryGo_calls_pos (fn : Nat → Except E A) (d i r : Nat) :
    1 ≤ (withRetryGo fn d i (r + 1)).calls := by
  cases r with
  | zero => cases h : fn i <;> simp [withRetryGo, h]
  | succ r2 => cases h : fn i <;> simp [withRetryGo, h]

/-- If attempts before relative index k fail and attempt k resolves v,
    the loop returns v. -/
theorem withRetryGo_first_ok (fn : Nat → Except E A) (d : Nat) (v : A) :
    ∀ (k i r : Nat), k < r → (∀ j, j < k → attemptFails (fn (i + j)) = true) →
      fn (i + k) = Except.ok v →
      (withRetryGo fn d i r).result = Except.ok (some v) := by
  intro k
  induction k with
  | zero =>
    intro i r hk _ hok
    rw [Nat.add_zero] at hok
    cases r with
    | zero => omega
    | succ r2 =>
      cases r2 with
      | zero => simp [withRetryGo, hok]
      | succ r3 => simp [withRetryGo, hok]
  | succ k ih =>
    intro i r hk hfail hok
    have h0 : attemptFails (fn i) = true := by
      have := hfail 0 (Nat.succ_pos k)
      rwa [Nat.add_zero] at this
    obtain ⟨e, he⟩ : ∃ e, fn i = Except.error e := by
      cases hfn : fn i with
      | ok a => rw [hfn] at h0; simp [attemptFails] at h0
      | error e => exact ⟨e, rfl⟩
    cases r with
    | zero => omega
    | succ r2 =>
      cases r2 with
      | zero => omega
      | succ r3 =>
        have hrec := ih (i + 1) (r3 + 1) (by omega)
          (fun j hj => by
            have hf := hfail (j + 1) (by omega)
            have harith : i + (j + 1) = i + 1 + j := by omega
            rwa [harith] at hf)
          (by
            have harith : i + (k + 1) = i + 1 + k := by omega
            rwa [harith] at hok)
        simp only [withRetryGo, he]
        exact hrec

/-- If every remaining attempt fails, the loop surfaces the error of the
    final attempt. -/
theorem withRetryGo_exhausted (fn : Nat → Except E A) (d : Nat) (e : E) :
    ∀ (r i : Nat), 1 ≤ r → (∀ j, j < r → attemptFails (fn (i + j)) = true) →
      fn (i + (r - 1)) = Except.error e →
      (withRetryGo fn d i r).result = Except.error e := by
  intro r
  induction r with
  | zero => intro i h1; omega
  | succ r ih =>
    intro i _ hfail hlast
    cases r with
    | zero =>
      norm_num at hlast
      simp [withRetryGo, hlast]
    | succ r2 =>
      have h0 : attemptFails (fn i) = true := by
        have := hfail 0 (by omega)
        rwa [Nat.add_zero] at this
      obtain ⟨e0, he0⟩ : ∃ e0, fn i = Except.error e0 := by
        cases hfn : fn i with
        | ok a => rw [hfn] at h0; simp [attemptFails] at h0
        | error e0 => exact ⟨e0, rfl⟩
      have hrec := ih (i + 1) (by omega)
        (fun j hj => by
          have hf := hfail (j + 1) (by omega)
          have harith : i + (j + 1) = i + 1 + j := by omega
          rwa [harith] at hf)
        (by
          have harith : i + (r2 + 1 + 1 - 1) = i + 1 + (r2 + 1 - 1) := by omega
          rwa [harith] at hlast)
      simp only [withRetryGo, he0]
      exact hrec

/-- The sleeps recorded by the loop starting at index i are
    d*(i+1), d*(i+2), ..., one per non-final failed attempt. -/
theorem withRetryGo_delays (fn : Nat → Except E A) (d : Nat) :
    ∀ (r i : Nat), (withRetryGo fn d i r).delays =
      (List.range ((withRetryGo fn d i r).calls - 1)).map
        (fun j => d * (i + j + 1)) := by
  intro r
  induction r with
  | zero => intro i; simp [withRetryGo]
  | succ r ih =>
    intro i
    cases r with
    | zero => cases h : fn i <;> simp [withRetryGo, h]
    | succ r2 =>
      cases h : fn i with
      | ok a => simp [withRetryGo, h]
      | error e =>
        have hpos := withRetryGo_calls_pos fn d (i + 1) r2
        obtain ⟨m, hm⟩ : ∃ m, (withRetryGo fn d (i + 1) (r2 + 1)).calls = m + 1 :=
          ⟨(withRetryGo fn d (i + 1) (r2 + 1)).calls - 1, by omega⟩
        have hfun : (fun j => d * (i + 1 + j + 1)) =
            ((fun j => d * (i + j + 1)) ∘ Nat.succ) := by
          funext j
          simp only [Function.comp, Nat.succ_eq_add_one]
          ring
        simp only [withRetryGo, h]
        rw [ih (i + 1), hm]
        simp only [Nat.add_sub_cancel]
        rw [List.range_succ_eq_map, List.map_cons, List.map_map, hfun]

/-! ## Claims C6, C7, C10 about withRetry -/

/-- C6: for every wrapped fn and maxRetries = n with n at least 1, the
    retry wrapper invokes fn at most n times; if attempts before k fail
    and attempt k succeeds, the value of attempt k is returned; if all n
    attempts fail, the error raised by the final (0-indexed n-1)
    attempt is the one surfaced to the caller. -/
theorem withRetry_at_most_and_surfaces_last (fn : Nat → Except E A) (d : Nat)
    (n : Nat) (hn : 1 ≤ n) :
    (withRetry fn (Int.ofNat n) d).calls ≤ n
    ∧ (∀ k v, k < n → (∀ j, j < k → attemptFails (fn j) = true) →
        fn k = Except.ok v →
        (withRetry fn (Int.ofNat n) d).result = Except.ok (some v))
    ∧ (∀ e, (∀ j, j < n → attemptFails (fn j) = true) →
        fn (n - 1) = Except.error e →
        (withRetry fn (Int.ofNat n) d).result = Except.error e) := by
  have hwr : withRetry fn (Int.ofNat n) d = withRetryGo fn d 0 n := rfl
  rw [hwr]
  refine ⟨withRetryGo_calls_le fn d n 0, ?_, ?_⟩
  · intro k v hk hfail hok
    exact withRetryGo_first_ok fn d v k 0 n hk
      (fun j hj => by simpa using hfail j hj)
      (by simpa using hok)
  · intro e hfail hlast
    exact withRetryGo_exhausted fn d e n 0 hn
      (fun j hj => by simpa using hfail j hj)
      (by simpa using hlast)

/-- Witness for C6 at maxRetries = 3, baseDelay = 1000 and the concrete
    origin flaky, which fails twice then resolves 42. -/
theorem withRetry_at_most_and_surfaces_last_witness :
    (1 ≤ 3)
    ∧ ((withRetry flaky (Int.ofNat 3) 1000).calls ≤ 3
      ∧ (∀ k v, k < 3 → (∀ j, j < k → attemptFails (flaky j) = true) →
          flaky k = Except.ok v →
          (withRetry flaky (Int.ofNat 3) 1000).result = Except.ok (some v))
      ∧ (∀ e, (∀ j, j < 3 → attemptFails (flaky j) = true) →
          flaky (3 - 1) = Except.error e →
          (withRetry flaky (Int.ofNat 3) 1000).result = Except.error e)) :=
  ⟨by decide, withRetry_at_most_and_surfaces_last flaky 1000 3 (by decide)⟩

/-- C7 counterexample: with baseDelay = 1000, maxRetries = 3 and an
    always-failing origin, the delay actually waited before 0-indexed
    attempt 1 (the first recorded sleep) is 1000 = baseDelay * 1, not
    baseDelay * (1 + 1) = 2000 as the claim prescribes for attempt i = 1. -/
theorem delay_before_attempt_counterexample :
    (withRetry failAlways (Int.ofNat 3) 1000).delays.get? 0 = some 1000
    ∧ ¬ (withRetry failAlways (Int.ofNat 3) 1000).delays.get? 0
        = some (1000 * (1 + 1)) := by
  constructor
  · rfl
  · decide

/-- C7 amended: the delay waited after 0-indexed failed attempt j, that
    is before attempt j+1, equals baseDelay * (j + 1): the recorded
    sleeps are baseDelay*1, baseDelay*2, ..., one per non-final failed
    attempt, and the sequence is monotonically non-decreasing. -/
theorem withRetry_delays_formula (fn : Nat → Except E A) (d : Nat) (n : Nat) :
    (withRetry fn (Int.ofNat n) d).delays =
      (List.range ((withRetry fn (Int.ofNat n) d).calls - 1)).map
        (fun j => d * (j + 1))
    ∧ List.Pairwise (· ≤ ·) (withRetry fn (Int.ofNat n) d).delays := by
  have hwr : withRetry fn (Int.ofNat n) d = withRetryGo fn d 0 n := rfl
  rw [hwr]
  have h := withRetryGo_delays fn d n 0
  have hfun : (fun j => d * (0 + j + 1)) = (fun j : Nat => d * (j + 1)) := by
    funext j
    ring
  rw [h, hfun]
  refine ⟨rfl, ?_⟩
  refine List.Pairwise.map _ ?_ (List.pairwise_lt_range _)
  intro a b hab
  exact Nat.mul_le_mul (Nat.le_refl d) (by omega)

/-- C10: calling withRetry with retries = 0 or any non-positive retries
    returns the undefined value without invoking fn, without sleeping and
    without raising an error, indistinguishable from a successful call
    resolving undefined. -/
theorem withRetry_zero_retries (fn : Nat → Except E A) (d : Nat)
    (retries : Int) (h : retries ≤ 0) :
    (withRetry fn retries d).result = Except.ok none
    ∧ (withRetry fn retries d).calls = 0
    ∧ (withRetry fn retries d).delays = [] := by
  unfold withRetry
  rw [Int.toNat_of_nonpos h]
  exact ⟨rfl, rfl, rfl⟩

/-- Witness for C10 at retries = -1 with the always-failing origin. -/
theorem withRetry_zero_retries_witness :
    ((-1 : Int) ≤ 0)
    ∧ ((withRetry failAlways (-1) 1000).result = Except.ok none
      ∧ (withRetry failAlways (-1) 1000).calls = 0
      ∧ (withRetry failAlways (-1) 1000).delays = []) :=
  ⟨by decide, withRetry_zero_retries failAlways 1000 (-1) (by decide)⟩

/-! ## Lemmas about CircuitBreaker -/

/-- If every scheduled flip is still in the future, running due timer
    callbacks changes nothing. -/
theorem fireTimers_of_fresh (cb : CircuitBreaker) (now : Nat)
    (hfresh : ∀ t ∈ cb.pending, now < t) :
    cb.fireTimers now = cb := by
  have h1 : cb.pending.any (fun t => decide (t ≤ now)) = false := by
    rw [List.any_eq_false]
    intro t ht
    simp only [decide_eq_true_eq]
    exact Nat.not_le.mpr (hfresh t ht)
  have h2 : cb.pending.filter (fun t => decide (now < t)) = cb.pending := by
    rw [List.filter_eq_self]
    intro a ha
    simp only [decide_eq_true_eq]
    exact hfresh a ha
  unfold CircuitBreaker.fireTimers
  rw [h1, h2]
  simp

/-! ## Claims C3, C4, C5 about CircuitBreaker -/

/-- C3: while the breaker state is Open (and no scheduled half-open flip
    is due yet), a call fails immediately with the circuit-open error and
    the wrapped function is never invoked. -/
theorem open_rejects_without_invoking (cb : CircuitBreaker) (now : Nat)
    (fn : Except E V) (hstate : cb.state = BState.opened)
    (hfresh : ∀ t ∈ cb.pending, now < t) :
    (cb.call now fn).result = Except.error CBErr.circuitOpen
    ∧ (cb.call now fn).invoked = false := by
  unfold CircuitBreaker.call CircuitBreaker.callAfter
  rw [fireTimers_of_fresh cb now hfresh, if_pos hstate]
  exact ⟨rfl, rfl⟩

/-- Witness for C3 on a concrete opened breaker at instant 5, well before
    its scheduled flip at 70000. -/
theorem open_rejects_without_invoking_witness :
    (openBreaker.call 5 (Except.error () : Except Unit Unit)).result
        = Except.error CBErr.circuitOpen
    ∧ (openBreaker.call 5 (Except.error () : Except Unit Unit)).invoked = false :=
  open_rejects_without_invoking openBreaker 5 (Except.error ()) rfl (by decide)

/-- C4: a new breaker starts Closed with zero failures and the default
    threshold 5; in the Closed state calls pass through (a success resets
    the failure count, a failure increments it and rethrows), and the
    failure that brings the count up to the threshold flips the state to
    Open while recording the opening instant through the half-open flip
    scheduled at now + timeout. -/
theorem closed_passthrough_and_trip (cb : CircuitBreaker) (now : Nat)
    (v : V) (e : E) (hstate : cb.state = BState.closed)
    (hfresh : ∀ t ∈ cb.pending, now < t) :
    (CircuitBreaker.new : CircuitBreaker).state = BState.closed
    ∧ (CircuitBreaker.new : CircuitBreaker).failures = 0
    ∧ (CircuitBreaker.new : CircuitBreaker).threshold = 5
    ∧ cb.call now (Except.ok v : Except E V) = ⟨Except.ok v, { cb with failures := 0 }, true⟩
    ∧ (cb.call now (Except.error e : Except E V)).invoked = true
    ∧ (cb.call now (Except.error e : Except E V)).result = Except.error (CBErr.wrapped e)
    ∧ (cb.call now (Except.error e : Except E V)).breaker.failures = cb.failures + 1
    ∧ (cb.threshold ≤ cb.failures + 1 →
        (cb.call now (Except.error e : Except E V)).breaker.state = BState.opened
        ∧ (cb.call now (Except.error e : Except E V)).breaker.pending
            = cb.pending ++ [now + cb.timeout])
    ∧ (cb.failures + 1 < cb.threshold →
        (cb.call now (Except.error e : Except E V)).breaker.state = BState.closed) := by
  have hne : ¬ cb.state = BState.opened := by
    rw [hstate]
    intro hcon
    cases hcon
  have hok : cb.call now (Except.ok v : Except E V)
      = ⟨Except.ok v, { cb with failures := 0 }, true⟩ := by
    unfold CircuitBreaker.call CircuitBreaker.callAfter
    rw [fireTimers_of_fresh cb now hfresh, if_neg hne]
  have herr : cb.call now (Except.error e : Except E V)
      = if cb.threshold ≤ cb.failures + 1 then
          ⟨Except.error (CBErr.wrapped e),
            { cb with
              failures := cb.failures + 1,
              state := BState.opened,
              pending := cb.pending ++ [now + cb.timeout] }, true⟩
        else
          ⟨Except.error (CBErr.wrapped e),
            { cb with failures := cb.failures + 1 }, true⟩ := by
    unfold CircuitBreaker.call CircuitBreaker.callAfter
    rw [fireTimers_of_fresh cb now hfresh, if_neg hne]
  refine ⟨rfl, rfl, rfl, hok, ?_, ?_, ?_, ?_, ?_⟩
  · by_cases hth : cb.threshold ≤ cb.failures + 1 <;> simp [herr, hth]
  · by_cases hth : cb.threshold ≤ cb.failures + 1 <;> simp [herr, hth]
  · by_cases hth : cb.threshold ≤ cb.failures + 1 <;> simp [herr, hth]
  · intro hth
    simp [herr, hth]
  · intro hth
    have hth2 : ¬ cb.threshold ≤ cb.failures + 1 := by omega
    simp [herr, hth2, hstate]

/-- Witness for C4 on a fresh default breaker at instant 0 with a
    successful call resolving 7 and a failing call raising the unit
    error. -/
theorem closed_passthrough_and_trip_witness :
    (CircuitBreaker.new : CircuitBreaker).state = BState.closed
    ∧ (CircuitBreaker.new : CircuitBreaker).call 0 (Except.ok (7 : Nat) : Except Unit Nat)
        = ⟨Except.ok 7, { (CircuitBreaker.new : CircuitBreaker) with failures := 0 }, true⟩
    ∧ ((CircuitBreaker.new : CircuitBreaker).call 0
        (Except.error () : Except Unit Nat)).breaker.failures
        = (CircuitBreaker.new : CircuitBreaker).failures + 1 :=
  ⟨(closed_passthrough_and_trip (CircuitBreaker.new : CircuitBreaker) 0
      (7 : Nat) () rfl (by decide)).1,
   (closed_passthrough_and_trip (CircuitBreaker.new : CircuitBreaker) 0
      (7 : Nat) () rfl (by decide)).2.2.2.1,
   (closed_passthrough_and_trip (CircuitBreaker.new : CircuitBreaker) 0
      (7 : Nat) () rfl (by decide)).2.2.2.2.2.2.1⟩

/-- C5 counterexample: breaker with threshold 1 and timeout 10; a failure
    at instant 0 trips it to Open, the scheduled flip makes it HalfOpen
    at instant 10, and a successful probe then leaves the state HalfOpen,
    not Closed as the claim prescribes. -/
theorem halfOpen_success_not_closed_counterexample :
    ((((CircuitBreaker.new 1 10).call 0 (Except.error () : Except Unit Unit)).breaker.call
        10 (Except.ok () : Except Unit Unit)).breaker.state = BState.halfOpen)
    ∧ BState.halfOpen ≠ BState.closed := by
  exact ⟨rfl, by decide⟩

/-- C5 amended: a successful probe in the HalfOpen state resets the
    failure count to 0 but leaves the breaker in HalfOpen rather than
    Closed (HalfOpen with zero failures passes calls through exactly like
    Closed, so the difference is only in the stored state label); a
    failing probe whose increment reaches the threshold (as after a trip,
    where the count still equals the threshold) flips the breaker back to
    Open and schedules a fresh half-open flip at now + timeout, resetting
    the open period. -/
theorem halfOpen_probe_behavior (cb : CircuitBreaker) (now : Nat)
    (v : V) (e : E) (hstate : cb.state = BState.halfOpen)
    (hfresh : ∀ t ∈ cb.pending, now < t) :
    cb.call now (Except.ok v : Except E V) = ⟨Except.ok v, { cb with failures := 0 }, true⟩
    ∧ (cb.threshold ≤ cb.failures + 1 →
        (cb.call now (Except.error e : Except E V)).breaker.state = BState.opened
        ∧ (cb.call now (Except.error e : Except E V)).breaker.failures = cb.failures + 1
        ∧ (cb.call now (Except.error e : Except E V)).breaker.pending
            = cb.pending ++ [now + cb.timeout]
        ∧ (cb.call now (Except.error e : Except E V)).result
            = Except.error (CBErr.wrapped e)) := by
  have hne : ¬ cb.state = BState.opened := by
    rw [hstate]
    intro hcon
    cases hcon
  constructor
  · unfold CircuitBreaker.call CircuitBreaker.callAfter
    rw [fireTimers_of_fresh cb now hfresh, if_neg hne]
  · intro hth
    have herr : cb.call now (Except.error e : Except E V)
        = if cb.threshold ≤ cb.failures + 1 then
            ⟨Except.error (CBErr.wrapped e),
              { cb with
                failures := cb.failures + 1,
                state := BState.opened,
                pending := cb.pending ++ [now + cb.timeout] }, true⟩
          else
            ⟨Except.error (CBErr.wrapped e),
              { cb with failures := cb.failures + 1 }, true⟩ := by
      unfold CircuitBreaker.call CircuitBreaker.callAfter
      rw [fireTimers_of_fresh cb now hfresh, if_neg hne]
    simp [herr, hth]

/-- Witness for the amended C5 on a concrete half-open breaker whose
    failure count sits at the threshold. -/
theorem halfOpen_probe_behavior_witness :
    halfOpenBreaker.call 70000 (Except.ok (7 : Nat) : Except Unit Nat)
        = ⟨Except.ok 7, { halfOpenBreaker with failures := 0 }, true⟩
    ∧ ((halfOpenBreaker.call 70000 (Except.error () : Except Unit Nat)).breaker.state
        = BState.opened
      ∧ (halfOpenBreaker.call 70000 (Except.error () : Except Unit Nat)).breaker.failures
        = halfOpenBreaker.failures + 1
      ∧ (halfOpenBreaker.call 70000 (Except.error () : Except Unit Nat)).breaker.pending
        = halfOpenBreaker.pending ++ [70000 + halfOpenBreaker.timeout]
      ∧ (halfOpenBreaker.call 70000 (Except.error () : Except Unit Nat)).result
        = Except.error (CBErr.wrapped ())) :=
  ⟨(halfOpen_probe_behavior halfOpenBreaker 70000 (7 : Nat) () rfl (by decide)).1,
   (halfOpen_probe_behavior halfOpenBreaker 70000 (7 : Nat) () rfl (by decide)).2
     (by decide)⟩

/-! ## Claims C1, C2, C8, C9 about the cache-aside sketches -/

/-- C1: for a key holding a non-expired cache entry, both cache-aside
    sketches return the cached value immediately, never consult the
    origin (the origin call count stays 0) and leave the store unchanged. -/
theorem cacheHit_short_circuits_origin (st : Store User) (now uid : Nat)
    (v : User) (sf : Bool) (db : Except Unit User)
    (hhit : Store.get st now (userKey uid) = some v) :
    cacheAsideExample st now uid false sf db = ⟨Except.ok v, st, 0⟩
    ∧ getUser st now uid false sf db = ⟨Except.ok v, st, 0⟩ := by
  constructor
  · unfold cacheAsideExample
    rw [hhit]
  · unfold getUser
    rw [hhit]

/-- Witness for C1 on a store holding a fresh entry for user 5 at
    instant 0. -/
theorem cacheHit_short_circuits_origin_witness :
    cacheAsideExample storeWithU5 0 5 false false (Except.ok (originUser 5))
        = ⟨Except.ok (originUser 5), storeWithU5, 0⟩
    ∧ getUser storeWithU5 0 5 false false (Except.ok (originUser 5))
        = ⟨Except.ok (originUser 5), storeWithU5, 0⟩ :=
  cacheHit_short_circuits_origin storeWithU5 0 5 (originUser 5) false
    (Except.ok (originUser 5)) (by decide)

/-- C2 counterexample: two callers running cacheAsideExample for user 5
    concurrently against the empty store invoke the origin twice, not
    exactly once as the claim prescribes. -/
theorem coalescing_counterexample :
    (concurrentPair emptyStore 0 5 (Except.ok (originUser 5))).originCalls = 2
    ∧ (concurrentPair emptyStore 0 5 (Except.ok (originUser 5))).originCalls ≠ 1 :=
  ⟨rfl, by decide⟩

/-- C2 amended: cacheAsideExample performs no request coalescing. When
    two callers run it concurrently for the same key against a store with
    no fresh entry (both reads precede either write, the event-loop order
    for simultaneous calls), the origin is invoked once per caller, twice
    in total, rather than once; both callers do receive the identical
    origin value and the final store holds it. -/
theorem concurrent_misses_each_invoke_origin (st : Store User) (now uid : Nat)
    (u : User) (hmiss : Store.get st now (userKey uid) = none) :
    (concurrentPair st now uid (Except.ok u)).originCalls = 2
    ∧ (concurrentPair st now uid (Except.ok u)).resA = Except.ok u
    ∧ (concurrentPair st now uid (Except.ok u)).resB = Except.ok u
    ∧ (concurrentPair st now uid (Except.ok u)).store.entries (userKey uid)
        = some (u, now + 600) := by
  simp only [concurrentPair, cacheAsideExample, cacheAsideMiss, hmiss]
  simp [Store.setEx]

/-- Witness for the amended C2 on the empty store at instant 0. -/
theorem concurrent_misses_each_invoke_origin_witness :
    (concurrentPair emptyStore 0 5 (Except.ok (originUser 5))).resA
        = Except.ok (originUser 5)
    ∧ (concurrentPair emptyStore 0 5 (Except.ok (originUser 5))).store.entries
        (userKey 5) = some (originUser 5, 0 + 600) :=
  ⟨(concurrent_misses_each_invoke_origin emptyStore 0 5 (originUser 5) rfl).2.1,
   (concurrent_misses_each_invoke_origin emptyStore 0 5 (originUser 5) rfl).2.2.2⟩

/-- C8: cacheAsideExample writes to the cache exactly when the origin
    read succeeds. Any call that fails leaves the store untouched while
    the error propagates; a miss with a successful origin read and a
    reliable store writes the entry (key, value, now + 600) and returns
    the value; and any call that changed the store was a successful
    origin read whose value is returned. -/
theorem write_iff_origin_success (st : Store User) (now uid : Nat)
    (db : Except Unit User) :
    (∀ gf sf ex, (cacheAsideExample st now uid gf sf db).result = Except.error ex →
        (cacheAsideExample st now uid gf sf db).store = st)
    ∧ (∀ u, Store.get st now (userKey uid) = none → db = Except.ok u →
        cacheAsideExample st now uid false false db
          = ⟨Except.ok u, Store.setEx st now 600 (userKey uid) u, 1⟩
        ∧ (Store.setEx st now 600 (userKey uid) u).entries (userKey uid)
            = some (u, now + 600))
    ∧ (∀ gf sf, (cacheAsideExample st now uid gf sf db).store ≠ st →
        ∃ u, db = Except.ok u
          ∧ (cacheAsideExample st now uid gf sf db).result = Except.ok u) := by
  refine ⟨?_, ?_, ?_⟩
  · intro gf sf ex h
    cases gf with
    | true => rfl
    | false =>
      cases hc : Store.get st now (userKey uid) with
      | some w =>
        unfold cacheAsideExample
        rw [hc]
      | none =>
        cases db with
        | error e0 =>
          unfold cacheAsideExample cacheAsideMiss
          rw [hc]
        | ok u =>
          cases sf with
          | true =>
            unfold cacheAsideExample cacheAsideMiss
            rw [hc]
          | false =>
            exfalso
            unfold cacheAsideExample cacheAsideMiss at h
            rw [hc] at h
            simp at h
  · intro u hmiss hdb
    subst hdb
    constructor
    · unfold cacheAsideExample cacheAsideMiss
      rw [hmiss]
    · unfold Store.setEx
      simp
  · intro gf sf h
    cases gf with
    | true => exact absurd rfl h
    | false =>
      cases hc : Store.get st now (userKey uid) with
      | some w =>
        exfalso
        apply h
        unfold cacheAsideExample
        rw [hc]
      | none =>
        cases db with
        | error e0 =>
          exfalso
          apply h
          unfold cacheAsideExample cacheAsideMiss
          rw [hc]
        | ok u =>
          cases sf with
          | true =>
            exfalso
            apply h
            unfold cacheAsideExample cacheAsideMiss
            rw [hc]
          | false =>
            refine ⟨u, rfl, ?_⟩
            unfold cacheAsideExample cacheAsideMiss
            rw [hc]

/-- Witness for C8: a miss on the empty store with a successful origin
    read writes the entry for user 5 expiring at 600 and returns it. -/
theorem write_iff_origin_success_witness :
    cacheAsideExample emptyStore 0 5 false false (Except.ok (originUser 5))
        = ⟨Except.ok (originUser 5),
            Store.setEx emptyStore 0 600 (userKey 5) (originUser 5), 1⟩
    ∧ (Store.setEx emptyStore 0 600 (userKey 5) (originUser 5)).entries (userKey 5)
        = some (originUser 5, 0 + 600) :=
  (write_iff_origin_success emptyStore 0 5 (Except.ok (originUser 5))).2.1
    (originUser 5) rfl rfl

/-- C9 counterexample: on the empty store with a rejecting redis.get, the
    cache-store error is surfaced to the caller of cacheAsideExample and
    the origin is never consulted, instead of the read being treated as a
    miss that degrades to an origin fetch. -/
theorem cache_error_surfaced_counterexample :
    (cacheAsideExample emptyStore 0 5 true false (Except.ok (originUser 5))).result
        = Except.error JsExn.cacheGetErr
    ∧ (cacheAsideExample emptyStore 0 5 true false
        (Except.ok (originUser 5))).originCalls = 0 :=
  ⟨rfl, rfl⟩

/-- C9 amended: the sketches assume an infallible cache store. A failing
    cache read is not treated as a miss: it rejects the whole call with
    the cache error before the origin is consulted (origin call count 0),
    in both cacheAsideExample and getUser; and a failing cache write is
    not silently dropped: it rejects the call even though the origin
    value was already obtained, leaving the store unchanged. -/
theorem cache_errors_propagate (st : Store User) (now uid : Nat)
    (db : Except Unit User) :
    ((cacheAsideExample st now uid true false db).result
        = Except.error JsExn.cacheGetErr
      ∧ (cacheAsideExample st now uid true false db).originCalls = 0
      ∧ (getUser st now uid true false db).result = Except.error JsExn.cacheGetErr
      ∧ (getUser st now uid true false db).originCalls = 0)
    ∧ (∀ u, Store.get st now (userKey uid) = none → db = Except.ok u →
        cacheAsideExample st now uid false true db
          = ⟨Except.error JsExn.cacheSetErr, st, 1⟩) := by
  refine ⟨⟨rfl, rfl, rfl, rfl⟩, ?_⟩
  intro u hmiss hdb
  subst hdb
  unfold cacheAsideExample cacheAsideMiss
  rw [hmiss]

/-- Witness for the amended C9: a rejecting redis.set on a miss rejects
    the call and leaves the empty store unchanged. -/
theorem cache_errors_propagate_witness :
    cacheAsideExample emptyStore 0 5 false true (Except.ok (originUser 5))
        = ⟨Except.error JsExn.cacheSetErr, emptyStore, 1⟩ :=
  (cache_errors_propagate emptyStore 0 5 (Except.ok (originUser 5))).2
    (originUser 5) rfl rfl

end InterviewPrep
